import Mathlib

/-!
Verification development for the audio-emotion-scapes repository.

The core of the repository (`src/components/MusicGenerator.tsx`) is a
mood-driven per-sample DSP transform (`generateMusicFromAudio`), a PCM→WAV
serializer (`encodeWAV` with `writeUTFBytes`), a bounded song catalog
(`saveSongOption`) and a generation pipeline entry point
(`handleGenerateMusic`).  This file shallowly embeds those functions and
proves properties about them.

Modelling conventions:
* JavaScript IEEE-754 doubles are idealised as real numbers `ℝ`; the index
  computations (`Math.floor(i * 1.05)` etc.) are carried out in `ℚ`, which is
  exact for the literals appearing in the source and keeps them executable.
* `Float32Array` channel reads `inputData[k]` are modelled with `List.getD`
  (default `0`); a separate theorem shows every index the transform uses is
  in bounds, so the default is never consulted on valid buffers.
* `Math.random()` is modelled as an injected noise source
  `noise : ℕ → ℕ → ℝ` (channel, sample index), one value per call site,
  mirroring the per-sample call `Math.random()` in the happy branch.
* `DataView.setUint16/setUint32/setInt16` little-endian writes at strictly
  increasing, exactly adjacent offsets are modelled as list concatenation of
  the corresponding byte groups; `setInt16` applies the ECMAScript `ToInt16`
  conversion (truncate toward zero, wrap modulo 2^16).
-/

/-- PCM audio buffer: a sample rate together with per-channel sample data.
Mirrors the `AudioBuffer` values flowing through `generateMusicFromAudio`. -/
structure PCMBuffer where
  sampleRate : ℕ
  channels : List (List ℝ)

/-- Channel count, mirroring `buffer.numberOfChannels`. -/
def PCMBuffer.channelCount (b : PCMBuffer) : ℕ := b.channels.length

/-- Frame count, mirroring `buffer.length` (the per-channel length, which for
a genuine `AudioBuffer` is shared by all channels). -/
def PCMBuffer.numFrames (b : PCMBuffer) : ℕ := (b.channels.headD []).length

/-- Validity invariant of a PCM buffer: positive sample rate, at least one
channel, non-empty channels, and all channels of equal length. -/
def PCMBuffer.Valid (b : PCMBuffer) : Prop :=
  0 < b.sampleRate ∧ 0 < b.channelCount ∧ 0 < b.numFrames ∧
    ∀ ch ∈ b.channels, ch.length = b.numFrames

instance (b : PCMBuffer) : Decidable b.Valid := by
  unfold PCMBuffer.Valid; infer_instance

/-- Mood label, from `MoodSelector.tsx`:
`type Mood = 'happy' | 'calm' | 'energetic' | 'sad' | 'angry'`. -/
inductive Mood where
  | happy
  | calm
  | energetic
  | sad
  | angry
  deriving DecidableEq

/-- Resampling index of the happy branch:
`Math.floor(i * 1.05) % inputData.length`. -/
def happyIndex (srcLen i : ℕ) : ℕ := (⌊(i : ℚ) * 1.05⌋).toNat % srcLen

/-- Resampling index of the calm branch:
`Math.floor(i * 0.85) % inputData.length`. -/
def calmIndex (srcLen i : ℕ) : ℕ := (⌊(i : ℚ) * 0.85⌋).toNat % srcLen

/-- Resampling index of the sad branch:
`Math.floor(i * 0.9) % inputData.length`. -/
def sadIndex (srcLen i : ℕ) : ℕ := (⌊(i : ℚ) * 0.9⌋).toNat % srcLen

/-- Echo offset of the calm branch: `Math.floor(sampleRate * 0.5)`. -/
def calmOffset (rate : ℕ) : ℕ := (⌊(rate : ℚ) * 0.5⌋).toNat

/-- Echo offset of the sad branch: `Math.floor(sampleRate * 0.3)`. -/
def sadOffset (rate : ℕ) : ℕ := (⌊(rate : ℚ) * 0.3⌋).toNat

/-- Echo source index of the calm branch:
`Math.max(0, i - Math.floor(sampleRate * 0.5))`; natural subtraction performs
the `Math.max(0, ·)` truncation. -/
def calmEchoIndex (rate i : ℕ) : ℕ := i - calmOffset rate

/-- Echo source index of the sad branch: `i - Math.floor(sampleRate * 0.3)`
(only read under the guard `i > sampleRate * 0.3`). -/
def sadEchoIndex (rate i : ℕ) : ℕ := i - sadOffset rate

/-- Floating-point remainder `x % y` of JavaScript for non-negative operands,
used by the energetic beat computation `i % (sampleRate / 4)`. -/
def fmodQ (x y : ℚ) : ℚ := x - y * ⌊x / y⌋

/-- Beat gain of the energetic branch:
`i % (sampleRate / 4) < 1000 ? 1.2 : 1` (the division `sampleRate / 4` is
floating-point division in the source, hence exact rational division here). -/
noncomputable def beatFactor (rate i : ℕ) : ℝ :=
  if fmodQ (i : ℚ) ((rate : ℚ) / 4) < 1000 then 1.2 else 1

/-- Bass-boost gain of the angry branch: `i % 2 === 0 ? 1.3 : 1`. -/
noncomputable def bassBoost (i : ℕ) : ℝ := if i % 2 = 0 then 1.3 else 1

/-- Happy-branch sample:
`inputData[newIndex] * 0.8 + (Math.random() * 0.1 - 0.05)`. -/
noncomputable def happySample (noise : ℕ → ℝ) (inp : List ℝ) (i : ℕ) : ℝ :=
  inp.getD (happyIndex inp.length i) 0 * 0.8 + (noise i * 0.1 - 0.05)

/-- Calm-branch echo term:
`i > sampleRate * 0.5` guards `inputData[Math.max(0, i - Math.floor(sampleRate * 0.5))] * 0.15`. -/
noncomputable def calmEcho (inp : List ℝ) (rate i : ℕ) : ℝ :=
  if (i : ℚ) > (rate : ℚ) * 0.5 then inp.getD (calmEchoIndex rate i) 0 * 0.15 else 0

/-- Calm-branch output sample given the two previous output samples:
`(inputData[newIndex] * 0.5 + prev1 * 0.3 + prev2 * 0.2) * 0.7` plus the
echo added by the subsequent `outputData[i] += echo` statement. -/
noncomputable def calmVal (inp : List ℝ) (rate i : ℕ) (p1 p2 : ℝ) : ℝ :=
  (inp.getD (calmIndex inp.length i) 0 * 0.5 + p1 * 0.3 + p2 * 0.2) * 0.7 +
    calmEcho inp rate i

/-- Calm-branch recurrence: `calmPair inp rate i = (out[i], out[i-1])`, with
`out[-1] = 0`, mirroring `prev1 = i > 0 ? outputData[i-1] : 0` and
`prev2 = i > 1 ? outputData[i-2] : 0`. -/
noncomputable def calmPair (inp : List ℝ) (rate : ℕ) : ℕ → ℝ × ℝ
  | 0 => (calmVal inp rate 0 0 0, 0)
  | i + 1 =>
    (calmVal inp rate (i + 1) (calmPair inp rate i).1 (calmPair inp rate i).2,
      (calmPair inp rate i).1)

/-- Calm-branch output sample `outputData[i]`. -/
noncomputable def calmSample (inp : List ℝ) (rate i : ℕ) : ℝ :=
  (calmPair inp rate i).1

/-- Energetic-branch sample: `Math.tanh(inputData[i] * 1.5) * beatEffect`. -/
noncomputable def energeticSample (inp : List ℝ) (rate i : ℕ) : ℝ :=
  Real.tanh (inp.getD i 0 * 1.5) * beatFactor rate i

/-- Sad-branch sample: `inputData[newIndex] * 0.7 + echo`, where the echo is
`i > sampleRate * 0.3 ? inputData[i - Math.floor(sampleRate * 0.3)] * 0.3 : 0`. -/
noncomputable def sadSample (inp : List ℝ) (rate i : ℕ) : ℝ :=
  inp.getD (sadIndex inp.length i) 0 * 0.7 +
    (if (i : ℚ) > (rate : ℚ) * 0.3 then inp.getD (sadEchoIndex rate i) 0 * 0.3 else 0)

/-- Angry-branch sample:
`Math.sign(inputData[i]) * Math.sqrt(Math.abs(inputData[i]))` times the
bass-boost gain. -/
noncomputable def angrySample (inp : List ℝ) (i : ℕ) : ℝ :=
  Real.sign (inp.getD i 0) * Real.sqrt |inp.getD i 0| * bassBoost i

/-- Per-channel transform of `generateMusicFromAudio`: one output channel of
`outLen` samples (`outLen` is `originalBuffer.length`), computed from the
channel data `inp` by the selected mood's per-sample formula. -/
noncomputable def moodChannel (mood : Mood) (rate : ℕ) (noise : ℕ → ℝ)
    (inp : List ℝ) (outLen : ℕ) : List ℝ :=
  match mood with
  | .happy => (List.range outLen).map fun i => happySample noise inp i
  | .calm => (List.range outLen).map fun i => calmSample inp rate i
  | .energetic => (List.range outLen).map fun i => energeticSample inp rate i
  | .sad => (List.range outLen).map fun i => sadSample inp rate i
  | .angry => (List.range outLen).map fun i => angrySample inp i

/-- Mood signal processor `generateMusicFromAudio` (the DSP part): an output
buffer with the same `numberOfChannels`, `length` and `sampleRate` as the
input, each channel produced by the mood's per-sample loop over
`getChannelData(channel)`. -/
noncomputable def generateMusicFromAudio (buf : PCMBuffer) (mood : Mood)
    (noise : ℕ → ℕ → ℝ) : PCMBuffer :=
  { sampleRate := buf.sampleRate
    channels := (List.range buf.channelCount).map fun c =>
      moodChannel mood buf.sampleRate (noise c) (buf.channels.getD c []) buf.numFrames }

/-- Processor error taxonomy relevant to the transform boundary. -/
inductive ProcessorError where
  | invalidAudioBuffer
  deriving DecidableEq

/-- Modelled from the spec: the `InvalidAudioBuffer` failure semantics of the
Mood Signal Processor ("if input PCMBuffer fails invariants (zero channels,
mismatched channel lengths), the processor fails with an `InvalidAudioBuffer`
error").  The source receives `AudioBuffer` values whose shape the Web Audio
API already enforces, so the validation step itself is absent from `src/`;
the valid path defers to the source-derived transform. -/
noncomputable def transformChecked (buf : PCMBuffer) (mood : Mood)
    (noise : ℕ → ℕ → ℝ) : Except ProcessorError PCMBuffer :=
  if buf.channelCount = 0 ∨ ¬ (∀ ch ∈ buf.channels, ch.length = buf.numFrames) then
    .error .invalidAudioBuffer
  else
    .ok (generateMusicFromAudio buf mood noise)

/-- Generated song metadata, from the `GeneratedSong` type (the blob and
resource handle are represented by their URL string). -/
structure GeneratedSong where
  id : String
  title : String
  duration : ℚ
  moodType : Mood
  url : String
  createdAt : ℕ
  deriving DecidableEq

/-- Song catalog append, from `saveSongOption`:
`setGeneratedSongs(prev => [song, ...prev].slice(0, 10))`. -/
def saveSong (song : GeneratedSong) (prev : List GeneratedSong) : List GeneratedSong :=
  (song :: prev).take 10

/-- Iterated catalog append: the songs of `l` are appended in order,
each through `saveSong`. -/
def saveAll (l : List GeneratedSong) (init : List GeneratedSong) : List GeneratedSong :=
  l.foldl (fun acc s => saveSong s acc) init

/-- Opaque recorded-audio blob handed to the pipeline. -/
structure Blob where
  bytes : List ℕ
  deriving DecidableEq

/-- Component state touched by `handleGenerateMusic`. -/
structure GeneratorState where
  isGenerating : Bool
  processingStage : String
  generatedSongs : List GeneratedSong
  generatedMusicUrl : Option String
  deriving DecidableEq

/-- Outcome of one `handleGenerateMusic` invocation. -/
inductive GenerateResult where
  | missingInput
  | failed
  | success
  deriving DecidableEq

/-- Generation failure surfaced by `processOutput` (`SongGeneratorException`). -/
inductive GenError where
  | songGenerator
  deriving DecidableEq

/-- Pipeline entry point `handleGenerateMusic`: the guard
`if (!audioBlob || !selectedMood)` reports missing input and returns with no
state change; otherwise the pipeline runs the stages, produces a song through
`processOutput` (abstracted as `genSong`, which may fail), saves it through
`saveSongOption` and records its URL, ending with
`setIsGenerating(false); setProcessingStage("complete")`. -/
def handleGenerateMusic (audioBlob : Option Blob) (selectedMood : Option Mood)
    (genSong : Mood → Except GenError GeneratedSong) (st : GeneratorState) :
    GenerateResult × GeneratorState :=
  match audioBlob, selectedMood with
  | none, _ => (.missingInput, st)
  | some _, none => (.missingInput, st)
  | some _, some mood =>
    match genSong mood with
    | .error _ =>
      (.failed, { st with isGenerating := false, processingStage := "complete" })
    | .ok song =>
      (.success,
        { st with
            isGenerating := false
            processingStage := "complete"
            generatedSongs := saveSong song st.generatedSongs
            generatedMusicUrl := some song.url })

/-- Little-endian bytes stored by `view.setUint16(offset, v, true)`:
the two bytes of `v mod 2^16`. -/
def u16le (v : ℕ) : List ℕ := [v % 256, v / 256 % 256]

/-- Little-endian bytes stored by `view.setUint32(offset, v, true)`:
the four bytes of `v mod 2^32`. -/
def u32le (v : ℕ) : List ℕ :=
  [v % 256, v / 256 % 256, v / 65536 % 256, v / 16777216 % 256]

/-- Bytes written by `writeUTFBytes(view, offset, s)`:
`s.charCodeAt(i)` for each character of an ASCII tag. -/
def writeUTFBytes (s : String) : List ℕ := s.data.map Char.toNat

/-- Truncation toward zero, the integer conversion inside the ECMAScript
`ToInt16` operation applied by `view.setInt16`. -/
noncomputable def truncJS (x : ℝ) : ℤ := if 0 ≤ x then ⌊x⌋ else -⌊-x⌋

/-- Signed 16-bit value produced by the ECMAScript `ToInt16` conversion:
truncate toward zero, reduce modulo 2^16, then reinterpret as a signed
16-bit integer. -/
noncomputable def toInt16 (x : ℝ) : ℤ :=
  if truncJS x % 65536 < 32768 then truncJS x % 65536 else truncJS x % 65536 - 65536

/-- Float-to-int16 conversion of `encodeWAV`:
`sample = Math.max(-1, Math.min(1, channelData[channel][i]))` followed by
`int16 = sample < 0 ? sample * 0x8000 : sample * 0x7FFF` and the `ToInt16`
conversion performed by `view.setInt16`. -/
noncomputable def sampleToInt16 (x : ℝ) : ℤ :=
  toInt16 (if max (-1) (min 1 x) < 0 then max (-1) (min 1 x) * 32768
           else max (-1) (min 1 x) * 32767)

/-- Raw little-endian bytes stored by `view.setInt16(offset, v, true)`:
the two bytes of `v mod 2^16`. -/
def i16le (v : ℤ) : List ℕ := u16le (v % 65536).toNat

/-- Interleaved 16-bit sample payload of `encodeWAV`: the nested loop
`for i < buffer.length: for channel < numOfChan: setInt16(...)`. -/
noncomputable def wavPayload (buf : PCMBuffer) : List ℕ :=
  (List.range buf.numFrames).flatMap fun i =>
    (List.range buf.channelCount).flatMap fun c =>
      i16le (sampleToInt16 ((buf.channels.getD c []).getD i 0))

/-- WAV serializer `encodeWAV`: the 44-byte RIFF/WAVE header written field by
field at offsets 0,4,8,12,16,20,22,24,28,32,34,36,40 (each write exactly
adjacent to the previous one), followed by the interleaved 16-bit payload
starting at offset 44. -/
noncomputable def encodeWAV (buf : PCMBuffer) : List ℕ :=
  writeUTFBytes "RIFF" ++
  u32le (36 + buf.numFrames * buf.channelCount * 2) ++
  writeUTFBytes "WAVE" ++
  writeUTFBytes "fmt " ++
  u32le 16 ++
  u16le 1 ++
  u16le buf.channelCount ++
  u32le buf.sampleRate ++
  u32le (buf.sampleRate * buf.channelCount * 2) ++
  u16le (buf.channelCount * 2) ++
  u16le 16 ++
  writeUTFBytes "data" ++
  u32le (buf.numFrames * buf.channelCount * 2) ++
  wavPayload buf

/-- Unsigned 16-bit little-endian read at `off` from a byte list. -/
def readU16 (bytes : List ℕ) (off : ℕ) : ℕ :=
  bytes.getD off 0 + 256 * bytes.getD (off + 1) 0

/-- Unsigned 32-bit little-endian read at `off` from a byte list. -/
def readU32 (bytes : List ℕ) (off : ℕ) : ℕ :=
  bytes.getD off 0 + 256 * bytes.getD (off + 1) 0 +
    65536 * bytes.getD (off + 2) 0 + 16777216 * bytes.getD (off + 3) 0

/-- Signed 16-bit little-endian read at `off` from a byte list. -/
def readI16 (bytes : List ℕ) (off : ℕ) : ℤ :=
  if readU16 bytes off < 32768 then (readU16 bytes off : ℤ)
  else (readU16 bytes off : ℤ) - 65536

/-- Decoded WAV stream: header fields plus per-channel sample data. -/
structure DecodedWAV where
  audioFormat : ℕ
  numChannels : ℕ
  sampleRate : ℕ
  bitsPerSample : ℕ
  channels : List (List ℝ)

/-- Modelled from the spec: a reference decoder for the 16-bit PCM WAV layout
of section 4.2 (absent from `src/`, which only encodes).  It reads the
`fmt ` fields at their fixed §4.2 offsets, takes everything after the 44-byte
header as the interleaved payload, and undoes the asymmetric scaling: a
negative 16-bit value is divided by 32768, a non-negative one by 32767. -/
noncomputable def decodeWAV (bytes : List ℕ) : DecodedWAV :=
  { audioFormat := readU16 bytes 20
    numChannels := readU16 bytes 22
    sampleRate := readU32 bytes 24
    bitsPerSample := readU16 bytes 34
    channels :=
      (List.range (readU16 bytes 22)).map fun c =>
        (List.range ((bytes.length - 44) / (2 * readU16 bytes 22))).map fun i =>
          let v := readI16 bytes (44 + 2 * (i * readU16 bytes 22 + c))
          if v < 0 then (v : ℝ) / 32768 else (v : ℝ) / 32767 }

/-- Energetic-branch sample of the variant transform in `src/unnamed/part_000`:
`Math.tanh(inputData[Math.floor(i * 1.2) % inputData.length] * 1.25)` times
the beat gain `(i % Math.floor(sampleRate / 3)) < Math.floor(sampleRate / 12) ? 1.4 : 1`. -/
noncomputable def energeticSample000 (inp : List ℝ) (rate i : ℕ) : ℝ :=
  Real.tanh (inp.getD ((⌊(i : ℚ) * 1.2⌋).toNat % inp.length) 0 * 1.25) *
    (if i % (rate / 3) < rate / 12 then 1.4 else 1)

/-- Angry-branch sample of the variant transform in `src/unnamed/part_000`:
`Math.sign(x) * Math.pow(Math.abs(x), 0.7)` times the bass gain
`i % 3 === 0 ? 1.4 : 1` and the irregular beat gain
`((i + Math.floor(i / 1.7)) % Math.floor(sampleRate / 2)) < Math.floor(sampleRate / 8) ? 1.6 : 1`. -/
noncomputable def angrySample000 (inp : List ℝ) (rate i : ℕ) : ℝ :=
  Real.sign (inp.getD i 0) * |inp.getD i 0| ^ (0.7 : ℝ) *
    (if i % 3 = 0 then 1.4 else 1) *
    (if (i + (⌊(i : ℚ) / 1.7⌋).toNat) % (rate / 2) < rate / 8 then 1.6 else 1)

/-! Helper lemmas. -/

theorem moodChannel_length (mood : Mood) (rate : ℕ) (noise : ℕ → ℝ)
    (inp : List ℝ) (outLen : ℕ) :
    (moodChannel mood rate noise inp outLen).length = outLen := by
  cases mood <;> simp [moodChannel]

theorem generateMusic_channels (buf : PCMBuffer) (mood : Mood) (noise : ℕ → ℕ → ℝ) :
    (generateMusicFromAudio buf mood noise).channels =
      (List.range buf.channelCount).map fun c =>
        moodChannel mood buf.sampleRate (noise c) (buf.channels.getD c []) buf.numFrames :=
  rfl

/-- C1: for every valid PCMBuffer and every mood, the transform's output has
the same sampleRate, the same channelCount, and every output channel has
length exactly the input frame count N. -/
theorem transform_preserves_shape (buf : PCMBuffer) (mood : Mood)
    (noise : ℕ → ℕ → ℝ) (hv : buf.Valid) :
    (generateMusicFromAudio buf mood noise).sampleRate = buf.sampleRate ∧
    (generateMusicFromAudio buf mood noise).channelCount = buf.channelCount ∧
    ∀ ch ∈ (generateMusicFromAudio buf mood noise).channels,
      ch.length = buf.numFrames := by
  refine ⟨rfl, ?_, ?_⟩
  · simp [generateMusicFromAudio, PCMBuffer.channelCount]
  · intro ch hch
    rw [generateMusic_channels] at hch
    rcases List.mem_map.mp hch with ⟨c, _, rfl⟩
    exact moodChannel_length ..

/-- Witness for `transform_preserves_shape` at a concrete one-sample buffer. -/
theorem transform_preserves_shape_witness :
    (⟨44100, [[0]]⟩ : PCMBuffer).Valid ∧
    ((generateMusicFromAudio ⟨44100, [[0]]⟩ .calm fun _ _ => 0).sampleRate = 44100 ∧
     (generateMusicFromAudio ⟨44100, [[0]]⟩ .calm fun _ _ => 0).channelCount = 1 ∧
     ∀ ch ∈ (generateMusicFromAudio ⟨44100, [[0]]⟩ .calm fun _ _ => 0).channels,
       ch.length = 1) := by
  refine ⟨?_, ?_⟩
  · refine ⟨by norm_num, by norm_num [PCMBuffer.channelCount], ?_, ?_⟩
    · simp [PCMBuffer.numFrames]
    · intro ch hch
      simp only [List.mem_singleton] at hch
      simp [hch, PCMBuffer.numFrames]
  · have h := transform_preserves_shape ⟨44100, [[0]]⟩ .calm (fun _ _ => 0)
      ⟨by norm_num, by norm_num [PCMBuffer.channelCount],
        by simp [PCMBuffer.numFrames],
        by intro ch hch; simp only [List.mem_singleton] at hch;
           simp [hch, PCMBuffer.numFrames]⟩
    simpa [PCMBuffer.numFrames, PCMBuffer.channelCount] using h

/-- C6: the catalog append prepends at the front and keeps at most 10 entries
(the prepend-and-truncate is a single atomic list update); appending 11 songs
to an empty catalog leaves exactly the last 10, newest first, with the 11th
at the front and the first-inserted song gone. -/
theorem catalog_bounded_newest_first
    (s1 s2 s3 s4 s5 s6 s7 s8 s9 s10 s11 : GeneratedSong)
    (hdistinct : s1 ∉ [s2, s3, s4, s5, s6, s7, s8, s9, s10, s11]) :
    (∀ s prev, (saveSong s prev).length ≤ 10) ∧
    saveAll [s1, s2, s3, s4, s5, s6, s7, s8, s9, s10, s11] [] =
      [s11, s10, s9, s8, s7, s6, s5, s4, s3, s2] ∧
    (saveAll [s1, s2, s3, s4, s5, s6, s7, s8, s9, s10, s11] []).length = 10 ∧
    (saveAll [s1, s2, s3, s4, s5, s6, s7, s8, s9, s10, s11] []).head? = some s11 ∧
    s1 ∉ saveAll [s1, s2, s3, s4, s5, s6, s7, s8, s9, s10, s11] [] := by
  have hfold : saveAll [s1, s2, s3, s4, s5, s6, s7, s8, s9, s10, s11] [] =
      [s11, s10, s9, s8, s7, s6, s5, s4, s3, s2] := rfl
  refine ⟨?_, hfold, ?_, ?_, ?_⟩
  · intro s prev
    simp only [saveSong, List.length_take]
    exact min_le_left _ _
  · rw [hfold]; rfl
  · rw [hfold]; rfl
  · rw [hfold]
    simp only [List.mem_cons, List.not_mem_nil, or_false] at hdistinct ⊢
    tauto

/-- Witness for `catalog_bounded_newest_first` with eleven concrete songs. -/
theorem catalog_bounded_newest_first_witness :
    (∀ s prev, (saveSong s prev).length ≤ 10) ∧
    saveAll ((List.range 11).map fun k =>
        ⟨toString k, "t", 0, .happy, "u", 0⟩) [] =
      ((List.range 10).map fun k =>
        (⟨toString (10 - k), "t", 0, .happy, "u", 0⟩ : GeneratedSong)) ∧
    (saveAll ((List.range 11).map fun k =>
        (⟨toString k, "t", 0, .happy, "u", 0⟩ : GeneratedSong)) []).length = 10 ∧
    (saveAll ((List.range 11).map fun k =>
        (⟨toString k, "t", 0, .happy, "u", 0⟩ : GeneratedSong)) []).head? =
      some ⟨"10", "t", 0, .happy, "u", 0⟩ ∧
    (⟨"0", "t", 0, .happy, "u", 0⟩ : GeneratedSong) ∉
      saveAll ((List.range 11).map fun k =>
        (⟨toString k, "t", 0, .happy, "u", 0⟩ : GeneratedSong)) [] := by
  have h := catalog_bounded_newest_first
    ⟨"0", "t", 0, .happy, "u", 0⟩ ⟨"1", "t", 0, .happy, "u", 0⟩
    ⟨"2", "t", 0, .happy, "u", 0⟩ ⟨"3", "t", 0, .happy, "u", 0⟩
    ⟨"4", "t", 0, .happy, "u", 0⟩ ⟨"5", "t", 0, .happy, "u", 0⟩
    ⟨"6", "t", 0, .happy, "u", 0⟩ ⟨"7", "t", 0, .happy, "u", 0⟩
    ⟨"8", "t", 0, .happy, "u", 0⟩ ⟨"9", "t", 0, .happy, "u", 0⟩
    ⟨"10", "t", 0, .happy, "u", 0⟩ (by decide)
  exact ⟨h.1, h.2.1, h.2.2.1, h.2.2.2.1, h.2.2.2.2⟩

/-- C9: when the audio source or the selected mood is absent, the pipeline
entry point reports missing input, performs no state transition, and leaves
the song catalog untouched. -/
theorem missing_input_leaves_state_unchanged (audioBlob : Option Blob)
    (selectedMood : Option Mood) (genSong : Mood → Except GenError GeneratedSong)
    (st : GeneratorState) (h : audioBlob = none ∨ selectedMood = none) :
    handleGenerateMusic audioBlob selectedMood genSong st = (.missingInput, st) ∧
    (handleGenerateMusic audioBlob selectedMood genSong st).2.generatedSongs.length =
      st.generatedSongs.length := by
  have heq : handleGenerateMusic audioBlob selectedMood genSong st = (.missingInput, st) := by
    rcases h with h | h
    · subst h; rfl
    · subst h
      cases audioBlob <;> rfl
  exact ⟨heq, by rw [heq]⟩

/-- Witness for `missing_input_leaves_state_unchanged` with no audio source. -/
theorem missing_input_leaves_state_unchanged_witness :
    handleGenerateMusic none (some .happy) (fun _ => .error .songGenerator)
        ⟨false, "waiting", [], none⟩ =
      (.missingInput, ⟨false, "waiting", [], none⟩) ∧
    (handleGenerateMusic none (some .happy) (fun _ => .error .songGenerator)
        ⟨false, "waiting", [], none⟩).2.generatedSongs.length =
      ([] : List GeneratedSong).length :=
  missing_input_leaves_state_unchanged none (some .happy)
    (fun _ => .error .songGenerator) ⟨false, "waiting", [], none⟩ (Or.inl rfl)

/-- C7: every source index the transform reads — the floor-and-modulo
resampling indices of the happy, calm and sad branches, the echo-tap indices,
and the direct index of the energetic and angry branches — lies in `[0, N)`
for a non-empty source channel. -/
theorem transform_indices_in_bounds (N rate i : ℕ) (hN : 0 < N) (hi : i < N) :
    happyIndex N i < N ∧ calmIndex N i < N ∧ sadIndex N i < N ∧
    calmEchoIndex rate i < N ∧ sadEchoIndex rate i < N ∧ i < N :=
  ⟨Nat.mod_lt _ hN, Nat.mod_lt _ hN, Nat.mod_lt _ hN,
    lt_of_le_of_lt (Nat.sub_le _ _) hi, lt_of_le_of_lt (Nat.sub_le _ _) hi, hi⟩

/-- Witness for `transform_indices_in_bounds` at `N = 5`, `i = 3`,
sample rate 44100. -/
theorem transform_indices_in_bounds_witness :
    happyIndex 5 3 < 5 ∧ calmIndex 5 3 < 5 ∧ sadIndex 5 3 < 5 ∧
    calmEchoIndex 44100 3 < 5 ∧ sadEchoIndex 44100 3 < 5 ∧ 3 < 5 :=
  transform_indices_in_bounds 5 44100 3 (by norm_num) (by norm_num)

theorem toInt16_id_of_bounds (v : ℤ) (h1 : -32768 ≤ v) (h2 : v ≤ 32767) :
    (if v % 65536 < 32768 then v % 65536 else v % 65536 - 65536) = v := by
  omega

theorem truncJS_of_nonneg (x : ℝ) (h : 0 ≤ x) : truncJS x = ⌊x⌋ := by
  simp [truncJS, h]

theorem truncJS_of_neg (x : ℝ) (h : x < 0) : truncJS x = ⌈x⌉ := by
  rw [truncJS, if_neg (not_le.mpr h), Int.floor_neg, neg_neg]

theorem clamp_lower (x : ℝ) : -1 ≤ max (-1) (min 1 x) := le_max_left _ _

theorem clamp_upper (x : ℝ) : max (-1) (min 1 x) ≤ 1 :=
  max_le (by norm_num) (min_le_left _ _)

/-- Bounds on the truncated value for a clamped sample. -/
theorem scaled_trunc_bounds (s : ℝ) (hs1 : -1 ≤ s) (hs2 : s ≤ 1) :
    (s < 0 → -32768 ≤ ⌈s * 32768⌉ ∧ ⌈s * 32768⌉ ≤ 0) ∧
    (0 ≤ s → 0 ≤ ⌊s * 32767⌋ ∧ ⌊s * 32767⌋ ≤ 32767) := by
  constructor
  · intro hneg
    constructor
    · rw [Int.le_ceil_iff]
      push_cast
      nlinarith
    · exact Int.ceil_le.mpr (by push_cast; nlinarith)
  · intro hpos
    constructor
    · exact Int.le_floor.mpr (by push_cast; nlinarith)
    · exact (Int.floor_le_floor (by nlinarith : s * 32767 ≤ (32767 : ℝ))).trans
        (by norm_num)

/-- Conversion of a clamped sample: the `ToInt16` wrap never fires, leaving
the asymmetric scaling truncated toward zero. -/
theorem toInt16_clamped (s : ℝ) (hs1 : -1 ≤ s) (hs2 : s ≤ 1) :
    toInt16 (if s < 0 then s * 32768 else s * 32767) =
      if s < 0 then ⌈s * 32768⌉ else ⌊s * 32767⌋ := by
  have hb := scaled_trunc_bounds s hs1 hs2
  by_cases hneg : s < 0
  · rw [if_pos hneg, if_pos hneg, toInt16,
      truncJS_of_neg _ (mul_neg_of_neg_of_pos hneg (by norm_num))]
    exact toInt16_id_of_bounds _ (hb.1 hneg).1 ((hb.1 hneg).2.trans (by norm_num))
  · rw [if_neg hneg, if_neg hneg, toInt16,
      truncJS_of_nonneg _ (mul_nonneg (not_lt.mp hneg) (by norm_num))]
    exact toInt16_id_of_bounds _
      ((by norm_num : (-32768 : ℤ) ≤ 0).trans (hb.2 (not_lt.mp hneg)).1)
      (hb.2 (not_lt.mp hneg)).2

/-- Unfolded form of the encoder's float-to-int16 conversion: the clamped
sample is scaled asymmetrically and truncated toward zero. -/
theorem sampleToInt16_eq (x : ℝ) :
    sampleToInt16 x =
      if max (-1) (min 1 x) < 0 then ⌈max (-1) (min 1 x) * 32768⌉
      else ⌊max (-1) (min 1 x) * 32767⌋ := by
  rw [sampleToInt16]
  exact toInt16_clamped _ (clamp_lower x) (clamp_upper x)

/-- Range of the conversion result. -/
theorem sampleToInt16_bounds (x : ℝ) :
    -32768 ≤ sampleToInt16 x ∧ sampleToInt16 x ≤ 32767 := by
  have hb := scaled_trunc_bounds _ (clamp_lower x) (clamp_upper x)
  rw [sampleToInt16_eq]
  by_cases hneg : max (-1) (min 1 x) < 0
  · rw [if_pos hneg]
    exact ⟨(hb.1 hneg).1, (hb.1 hneg).2.trans (by norm_num)⟩
  · rw [if_neg hneg]
    exact ⟨(by norm_num : (-32768 : ℤ) ≤ 0).trans (hb.2 (not_lt.mp hneg)).1,
      (hb.2 (not_lt.mp hneg)).2⟩

/-- C4 counterexample: the conversion does not round to the nearest integer.
At sample `0.7` the scaled value is `22936.9`; rounding to nearest gives
`22937`, but the encoder stores `22936` (truncation toward zero). -/
theorem float_conversion_not_nearest :
    sampleToInt16 (7 / 10) = 22936 ∧ round ((7 / 10 : ℝ) * 32767) = 22937 := by
  constructor
  · rw [sampleToInt16_eq]
    have h1 : max (-1) (min 1 (7 / 10 : ℝ)) = 7 / 10 := by
      rw [min_eq_right (by norm_num), max_eq_right (by norm_num)]
    rw [h1, if_neg (by norm_num), Int.floor_eq_iff]
    norm_num
  · rw [round_eq, Int.floor_eq_iff]
    norm_num

/-- C4 amended: for every float sample, the conversion clamps to `[-1, 1]`,
scales a negative clamped value by 32768 and a non-negative one by 32767,
and truncates the scaled value toward zero (ceiling of a negative value,
floor of a non-negative one) — it does not round to nearest. -/
theorem float_conversion_clamp_scale_truncate (x : ℝ) :
    sampleToInt16 x =
      if max (-1) (min 1 x) < 0 then ⌈max (-1) (min 1 x) * 32768⌉
      else ⌊max (-1) (min 1 x) * 32767⌋ :=
  sampleToInt16_eq x

/-- C10: every 16-bit value the encoder writes lies in `[-32768, 32767]`
(the clamp prevents any wrap), with `-1` mapping to `-32768` and `+1` to
`32767`. -/
theorem payload_int16_in_range :
    (∀ x : ℝ, -32768 ≤ sampleToInt16 x ∧ sampleToInt16 x ≤ 32767) ∧
    sampleToInt16 (-1) = -32768 ∧ sampleToInt16 1 = 32767 := by
  refine ⟨sampleToInt16_bounds, ?_, ?_⟩
  · rw [sampleToInt16_eq]
    have h1 : max (-1) (min 1 (-1 : ℝ)) = -1 := by
      rw [min_eq_right (by norm_num), max_eq_left (by norm_num)]
    rw [h1, if_pos (by norm_num),
      show ((-1 : ℝ) * 32768) = ((-32768 : ℤ) : ℝ) by norm_num, Int.ceil_intCast]
  · rw [sampleToInt16_eq]
    have h1 : max (-1) (min 1 (1 : ℝ)) = 1 := by
      rw [min_eq_left (by norm_num), max_eq_right (by norm_num)]
    rw [h1, if_neg (by norm_num),
      show ((1 : ℝ) * 32767) = ((32767 : ℤ) : ℝ) by norm_num, Int.floor_intCast]

theorem exp_three_gt_eleven : (11 : ℝ) < Real.exp 3 := by
  have h1 : Real.exp 3 = Real.exp 1 ^ (3 : ℕ) := by
    rw [← Real.exp_nat_mul]
    norm_num
  rw [h1]
  calc (11 : ℝ) < 2.7182818283 ^ (3 : ℕ) := by norm_num
    _ < Real.exp 1 ^ (3 : ℕ) :=
      pow_lt_pow_left Real.exp_one_gt_d9 (by norm_num) (by norm_num)

theorem exp_five_halves_gt_six : (6 : ℝ) < Real.exp (5 / 2) := by
  have h1 : Real.exp 2 < Real.exp (5 / 2) := Real.exp_lt_exp.mpr (by norm_num)
  have h2 : Real.exp 2 = Real.exp 1 ^ (2 : ℕ) := by
    rw [← Real.exp_nat_mul]
    norm_num
  have h3 : (6 : ℝ) < Real.exp 1 ^ (2 : ℕ) :=
    calc (6 : ℝ) < 2.7182818283 ^ (2 : ℕ) := by norm_num
      _ < Real.exp 1 ^ (2 : ℕ) :=
        pow_lt_pow_left Real.exp_one_gt_d9 (by norm_num) (by norm_num)
  linarith [h3, h2 ▸ h1]

theorem tanh_gt_of_exp_sq (x c : ℝ) (hc : 0 < c)
    (h : (1 + c) / (1 - c) < Real.exp x * Real.exp x) (hc1 : c < 1) :
    c < Real.tanh x := by
  have ha : 0 < Real.exp x := Real.exp_pos x
  have hinv : Real.exp x * (Real.exp x)⁻¹ = 1 := mul_inv_cancel₀ (ne_of_gt ha)
  have hcosh : 0 < Real.cosh x := Real.cosh_pos x
  rw [Real.tanh_eq_sinh_div_cosh, lt_div_iff hcosh, Real.sinh_eq, Real.cosh_eq,
    Real.exp_neg]
  have hd : 0 < 1 - c := by linarith
  rw [div_lt_iff hd] at h
  have hinvpos : 0 < (Real.exp x)⁻¹ := inv_pos.mpr ha
  have key : (Real.exp x)⁻¹ * (1 + c) < Real.exp x * (1 - c) := by
    have h2 := mul_lt_mul_of_pos_left h hinvpos
    have h3 : (Real.exp x)⁻¹ * (Real.exp x * Real.exp x * (1 - c)) =
        Real.exp x * (1 - c) := by
      field_simp
      ring
    linarith [h3 ▸ h2]
  nlinarith [key]

theorem tanh_three_halves_gt : (5 / 6 : ℝ) < Real.tanh (3 / 2) := by
  refine tanh_gt_of_exp_sq _ _ (by norm_num) ?_ (by norm_num)
  calc ((1 + 5 / 6 : ℝ) / (1 - 5 / 6)) = 11 := by norm_num
    _ < Real.exp 3 := exp_three_gt_eleven
    _ = Real.exp (3 / 2) * Real.exp (3 / 2) := by
        rw [← Real.exp_add]
        norm_num

theorem tanh_five_fourths_gt : (5 / 7 : ℝ) < Real.tanh (5 / 4) := by
  refine tanh_gt_of_exp_sq _ _ (by norm_num) ?_ (by norm_num)
  calc ((1 + 5 / 7 : ℝ) / (1 - 5 / 7)) = 6 := by norm_num
    _ < Real.exp (5 / 2) := exp_five_halves_gt_six
    _ = Real.exp (5 / 4) * Real.exp (5 / 4) := by
        rw [← Real.exp_add]
        norm_num

/-- C2 counterexample: the transform does not clamp.  On the one-sample
buffer `[[1]]` (a valid buffer whose sample lies in `[-1, 1]`), the angry
branch outputs `1.3` and the energetic branch outputs
`tanh(1.5) * 1.2 > 1`; the `part_000` variants of those branches exceed the
range as well (`1 * 1.4 * 1.6 = 2.24` and `tanh(1.25) * 1.4 > 1`). -/
theorem transform_output_exceeds_range :
    (⟨4, [[1]]⟩ : PCMBuffer).Valid ∧ |(1 : ℝ)| ≤ 1 ∧
    1 < ((generateMusicFromAudio ⟨4, [[1]]⟩ .angry fun _ _ => 0).channels.getD 0 []).getD 0 0 ∧
    1 < ((generateMusicFromAudio ⟨4, [[1]]⟩ .energetic fun _ _ => 0).channels.getD 0 []).getD 0 0 ∧
    1 < angrySample000 [1] 16 0 ∧
    1 < energeticSample000 [1] 12 0 := by
  have hangry : ((generateMusicFromAudio ⟨4, [[1]]⟩ .angry fun _ _ => 0).channels.getD 0 []).getD 0 0 =
      angrySample [1] 0 := by
    simp [generateMusicFromAudio, moodChannel, PCMBuffer.channelCount,
      PCMBuffer.numFrames]
  have henergetic : ((generateMusicFromAudio ⟨4, [[1]]⟩ .energetic fun _ _ => 0).channels.getD 0 []).getD 0 0 =
      energeticSample [1] 4 0 := by
    simp [generateMusicFromAudio, moodChannel, PCMBuffer.channelCount,
      PCMBuffer.numFrames]
  refine ⟨?_, by norm_num, ?_, ?_, ?_, ?_⟩
  · refine ⟨by norm_num, by norm_num [PCMBuffer.channelCount], ?_, ?_⟩
    · simp [PCMBuffer.numFrames]
    · intro ch hch
      simp only [List.mem_singleton] at hch
      simp [hch, PCMBuffer.numFrames]
  · rw [hangry, angrySample]
    have h0 : ([(1 : ℝ)].getD 0 0) = 1 := rfl
    rw [h0]
    rw [Real.sign_of_pos (by norm_num : (0:ℝ) < 1), abs_one, Real.sqrt_one,
      bassBoost]
    norm_num
  · rw [henergetic, energeticSample]
    have h0 : ([(1 : ℝ)].getD 0 0) = 1 := rfl
    rw [h0]
    have hb : beatFactor 4 0 = 1.2 := by
      rw [beatFactor, if_pos]
      rw [fmodQ]
      norm_num
    rw [hb]
    have ht : (1 : ℝ) * 1.5 = 3 / 2 := by norm_num
    rw [ht]
    nlinarith [tanh_three_halves_gt]
  · rw [angrySample000]
    have h0 : ([(1 : ℝ)].getD 0 0) = 1 := rfl
    rw [h0]
    rw [Real.sign_of_pos (by norm_num : (0:ℝ) < 1), abs_one, Real.one_rpow]
    norm_num
  · rw [energeticSample000]
    have hidx : ((⌊((0 : ℕ) : ℚ) * 1.2⌋).toNat % [(1 : ℝ)].length) = 0 := by
      norm_num
    rw [hidx]
    have h0 : ([(1 : ℝ)].getD 0 0) = 1 := rfl
    rw [h0]
    rw [if_pos (show 0 % (12 / 3) < 12 / 12 by norm_num)]
    have ht : (1 : ℝ) * 1.25 = 5 / 4 := by norm_num
    rw [ht]
    nlinarith [tanh_five_fourths_gt]

theorem abs_getD_le_one (inp : List ℝ) (h : ∀ x ∈ inp, |x| ≤ 1) (k : ℕ) :
    |inp.getD k 0| ≤ 1 := by
  by_cases hk : k < inp.length
  · rw [List.getD_eq_getElem _ _ hk]
    exact h _ (List.getElem_mem hk)
  · rw [List.getD_eq_default _ _ (le_of_not_lt hk)]
    norm_num

theorem calmEcho_bound (inp : List ℝ) (h : ∀ x ∈ inp, |x| ≤ 1) (rate i : ℕ) :
    |calmEcho inp rate i| ≤ 3 / 20 := by
  rw [calmEcho]
  split
  · rw [abs_mul]
    have := abs_getD_le_one inp h (calmEchoIndex rate i)
    calc |inp.getD (calmEchoIndex rate i) 0| * |(0.15 : ℝ)| ≤ 1 * |(0.15 : ℝ)| := by
          exact mul_le_mul_of_nonneg_right this (abs_nonneg _)
      _ ≤ 3 / 20 := by
          rw [one_mul, abs_of_nonneg (by norm_num : (0 : ℝ) ≤ 0.15)]
          norm_num
  · norm_num

theorem calmVal_bound (inp : List ℝ) (h : ∀ x ∈ inp, |x| ≤ 1) (rate i : ℕ)
    (p1 p2 : ℝ) (hp1 : |p1| ≤ 10 / 13) (hp2 : |p2| ≤ 10 / 13) :
    |calmVal inp rate i p1 p2| ≤ 10 / 13 := by
  rw [calmVal]
  rcases abs_le.mp (abs_getD_le_one inp h (calmIndex inp.length i)) with ⟨ha1, ha2⟩
  rcases abs_le.mp hp1 with ⟨hb1, hb2⟩
  rcases abs_le.mp hp2 with ⟨hc1, hc2⟩
  rcases abs_le.mp (calmEcho_bound inp h rate i) with ⟨he1, he2⟩
  rw [abs_le]
  constructor <;> nlinarith

theorem calmPair_bound (inp : List ℝ) (h : ∀ x ∈ inp, |x| ≤ 1) (rate : ℕ) :
    ∀ i, |(calmPair inp rate i).1| ≤ 10 / 13 ∧ |(calmPair inp rate i).2| ≤ 10 / 13 := by
  intro i
  induction i with
  | zero =>
    constructor
    · exact calmVal_bound inp h rate 0 0 0 (by norm_num) (by norm_num)
    · show |(0 : ℝ)| ≤ 10 / 13
      norm_num
  | succ n ih =>
    refine ⟨?_, ih.1⟩
    exact calmVal_bound inp h rate (n + 1) _ _ ih.1 ih.2

theorem calmSample_bound (inp : List ℝ) (h : ∀ x ∈ inp, |x| ≤ 1) (rate i : ℕ) :
    |calmSample inp rate i| ≤ 10 / 13 :=
  (calmPair_bound inp h rate i).1

/-- C2 amended: the implementation does not clamp, and the energetic and
angry branches can exceed `[-1, 1]`; of the three branches the claim names,
only the calm branch keeps every output sample inside `[-1, 1]` (indeed
inside `[-10/13, 10/13]`) whenever every input sample lies in `[-1, 1]`. -/
theorem calm_output_within_range (buf : PCMBuffer) (noise : ℕ → ℕ → ℝ)
    (hv : buf.Valid) (hs : ∀ ch ∈ buf.channels, ∀ x ∈ ch, |x| ≤ 1) :
    ∀ ch ∈ (generateMusicFromAudio buf .calm noise).channels, ∀ y ∈ ch, |y| ≤ 1 := by
  intro ch hch y hy
  rw [generateMusic_channels] at hch
  rcases List.mem_map.mp hch with ⟨c, hc, rfl⟩
  rw [moodChannel] at hy
  rcases List.mem_map.mp hy with ⟨i, _, rfl⟩
  have hin : ∀ x ∈ buf.channels.getD c [], |x| ≤ 1 := by
    by_cases hlt : c < buf.channels.length
    · rw [List.getD_eq_getElem _ _ hlt]
      exact hs _ (List.getElem_mem hlt)
    · rw [List.getD_eq_default _ _ (le_of_not_lt hlt)]
      intro x hx
      simp at hx
  exact le_trans (calmSample_bound _ hin _ _) (by norm_num)

/-- Witness for `calm_output_within_range` at a concrete one-sample buffer. -/
theorem calm_output_within_range_witness :
    |((generateMusicFromAudio ⟨4, [[1]]⟩ .calm fun _ _ => 0).channels.getD 0
        []).getD 0 0| ≤ 1 := by
  have hv : (⟨4, [[1]]⟩ : PCMBuffer).Valid := by
    refine ⟨by norm_num, by norm_num [PCMBuffer.channelCount], ?_, ?_⟩
    · simp [PCMBuffer.numFrames]
    · intro ch hch
      simp only [List.mem_singleton] at hch
      simp [hch, PCMBuffer.numFrames]
  have hs : ∀ ch ∈ ([[1]] : List (List ℝ)), ∀ x ∈ ch, |x| ≤ 1 := by
    intro ch hch x hx
    simp only [List.mem_singleton] at hch
    subst hch
    simp only [List.mem_singleton] at hx
    subst hx
    norm_num
  exact calm_output_within_range ⟨4, [[1]]⟩ (fun _ _ => 0) hv hs _
    (List.mem_singleton_self _) _ (List.mem_singleton_self _)

/-- C8: the checked processor boundary fails with `InvalidAudioBuffer`
exactly when the buffer violates its invariants (zero channels or mismatched
channel lengths), and succeeds — never raises — on every invariant-satisfying
buffer, whatever the mood. -/
theorem processor_error_semantics (buf : PCMBuffer) (mood : Mood)
    (noise : ℕ → ℕ → ℝ) :
    ((buf.channelCount = 0 ∨ ¬ (∀ ch ∈ buf.channels, ch.length = buf.numFrames)) →
      transformChecked buf mood noise = .error .invalidAudioBuffer) ∧
    (buf.channelCount ≠ 0 → (∀ ch ∈ buf.channels, ch.length = buf.numFrames) →
      transformChecked buf mood noise = .ok (generateMusicFromAudio buf mood noise)) := by
  constructor
  · intro hbad
    rw [transformChecked, if_pos hbad]
  · intro h1 h2
    rw [transformChecked, if_neg]
    push_neg
    exact ⟨h1, h2⟩

/-- Witness for `processor_error_semantics`: a zero-channel buffer fails
with `InvalidAudioBuffer`, a valid one-channel buffer succeeds. -/
theorem processor_error_semantics_witness :
    transformChecked ⟨1, []⟩ .happy (fun _ _ => 0) = .error .invalidAudioBuffer ∧
    transformChecked ⟨1, [[0]]⟩ .happy (fun _ _ => 0) =
      .ok (generateMusicFromAudio ⟨1, [[0]]⟩ .happy fun _ _ => 0) := by
  constructor
  · exact (processor_error_semantics ⟨1, []⟩ .happy fun _ _ => 0).1 (Or.inl rfl)
  · refine (processor_error_semantics ⟨1, [[0]]⟩ .happy fun _ _ => 0).2 ?_ ?_
    · simp [PCMBuffer.channelCount]
    · intro ch hch
      simp only [List.mem_singleton] at hch
      simp [hch, PCMBuffer.numFrames]

theorem length_flatMap_const {α β : Type} (l : List α) (f : α → List β) (L : ℕ)
    (h : ∀ x ∈ l, (f x).length = L) : (l.flatMap f).length = l.length * L := by
  induction l with
  | nil => simp
  | cons x xs ih =>
    simp only [List.flatMap_cons, List.length_append, List.length_cons]
    rw [h x (by simp), ih fun y hy => h y (by simp [hy])]
    ring

theorem flatMap_range_extract {β : Type} (f : ℕ → List β) (L : ℕ)
    (h : ∀ k, (f k).length = L) :
    ∀ N i, i < N →
      ∃ rest, ((List.range N).flatMap f).drop (L * i) = f i ++ rest := by
  intro N
  induction N with
  | zero => exact fun i hi => absurd hi (Nat.not_lt_zero i)
  | succ N ih =>
    intro i hi
    rw [List.range_succ, List.flatMap_append]
    have hlen : ((List.range N).flatMap f).length = N * L := by
      rw [length_flatMap_const _ _ L fun x _ => h x, List.length_range]
    by_cases hc : i < N
    · obtain ⟨rest, hr⟩ := ih i hc
      refine ⟨rest ++ [N].flatMap f, ?_⟩
      rw [List.drop_append_of_le_length
          (by rw [hlen, Nat.mul_comm]; exact Nat.mul_le_mul_right L hc.le),
        hr, List.append_assoc]
    · have hiN : i = N := by omega
      subst hiN
      refine ⟨[], ?_⟩
      have hLi : L * i = ((List.range i).flatMap f).length := by
        rw [hlen]
        ring
      rw [hLi, List.drop_left]
      simp

theorem i16le_length (v : ℤ) : (i16le v).length = 2 := rfl

theorem wavFrame_length (buf : PCMBuffer) (k : ℕ) :
    ((List.range buf.channelCount).flatMap fun c =>
      i16le (sampleToInt16 ((buf.channels.getD c []).getD k 0))).length =
      2 * buf.channelCount := by
  rw [length_flatMap_const _ _ 2 fun x _ => i16le_length _, List.length_range,
    Nat.mul_comm]

theorem wavPayload_length (buf : PCMBuffer) :
    (wavPayload buf).length = buf.numFrames * buf.channelCount * 2 := by
  rw [wavPayload, length_flatMap_const _ _ (2 * buf.channelCount)
    fun x _ => wavFrame_length buf x, List.length_range]
  ring

theorem wavPayload_extract (buf : PCMBuffer) (i c : ℕ)
    (hi : i < buf.numFrames) (hc : c < buf.channelCount) :
    ∃ rest, (wavPayload buf).drop (2 * (i * buf.channelCount + c)) =
      i16le (sampleToInt16 ((buf.channels.getD c []).getD i 0)) ++ rest := by
  obtain ⟨rest1, h1⟩ := flatMap_range_extract _ (2 * buf.channelCount)
    (wavFrame_length buf) buf.numFrames i hi
  obtain ⟨rest2, h2⟩ := flatMap_range_extract
    (fun c => i16le (sampleToInt16 ((buf.channels.getD c []).getD i 0))) 2
    (fun k => i16le_length _) buf.channelCount c hc
  refine ⟨rest2 ++ rest1, ?_⟩
  have hm : 2 * (i * buf.channelCount + c) = 2 * buf.channelCount * i + 2 * c := by
    ring
  rw [wavPayload, hm, ← List.drop_drop, h1,
    List.drop_append_of_le_length (by rw [wavFrame_length buf i]; omega), h2,
    List.append_assoc]

theorem encodeWAV_drop_44 (buf : PCMBuffer) (m : ℕ) :
    (encodeWAV buf).drop (44 + m) = (wavPayload buf).drop m := by
  have h44 : (encodeWAV buf).drop 44 = wavPayload buf := rfl
  rw [← List.drop_drop, h44]

/-- C3: the encoder's byte stream is the canonical 44-byte RIFF/WAVE header —
"RIFF", little-endian uint32 `36 + dataLength`, "WAVE", a "fmt " sub-chunk
with chunkSize 16, audioFormat 1, numChannels, sampleRate,
byteRate = sampleRate·channels·2, blockAlign = channels·2, bitsPerSample 16,
and a "data" sub-chunk of chunkSize `N·channels·2` — followed by the
channel-interleaved 16-bit signed little-endian samples, the frame `i`,
channel `c` sample sitting at byte offset `44 + 2·(i·channels + c)`. -/
theorem wav_byte_layout (buf : PCMBuffer) :
    (encodeWAV buf).length = 44 + buf.numFrames * buf.channelCount * 2 ∧
    (encodeWAV buf).take 44 =
      [82, 73, 70, 70,
       (36 + buf.numFrames * buf.channelCount * 2) % 256,
       (36 + buf.numFrames * buf.channelCount * 2) / 256 % 256,
       (36 + buf.numFrames * buf.channelCount * 2) / 65536 % 256,
       (36 + buf.numFrames * buf.channelCount * 2) / 16777216 % 256,
       87, 65, 86, 69,
       102, 109, 116, 32,
       16, 0, 0, 0,
       1, 0,
       buf.channelCount % 256, buf.channelCount / 256 % 256,
       buf.sampleRate % 256, buf.sampleRate / 256 % 256,
       buf.sampleRate / 65536 % 256, buf.sampleRate / 16777216 % 256,
       (buf.sampleRate * buf.channelCount * 2) % 256,
       (buf.sampleRate * buf.channelCount * 2) / 256 % 256,
       (buf.sampleRate * buf.channelCount * 2) / 65536 % 256,
       (buf.sampleRate * buf.channelCount * 2) / 16777216 % 256,
       (buf.channelCount * 2) % 256, (buf.channelCount * 2) / 256 % 256,
       16, 0,
       100, 97, 116, 97,
       (buf.numFrames * buf.channelCount * 2) % 256,
       (buf.numFrames * buf.channelCount * 2) / 256 % 256,
       (buf.numFrames * buf.channelCount * 2) / 65536 % 256,
       (buf.numFrames * buf.channelCount * 2) / 16777216 % 256] ∧
    ∀ i, i < buf.numFrames → ∀ c, c < buf.channelCount →
      ((encodeWAV buf).drop (44 + 2 * (i * buf.channelCount + c))).take 2 =
        i16le (sampleToInt16 ((buf.channels.getD c []).getD i 0)) := by
  refine ⟨?_, rfl, ?_⟩
  · have t1 : (writeUTFBytes "RIFF").length = 4 := rfl
    have t2 : (writeUTFBytes "WAVE").length = 4 := rfl
    have t3 : (writeUTFBytes "fmt ").length = 4 := rfl
    have t4 : (writeUTFBytes "data").length = 4 := rfl
    have hu32 : ∀ v, (u32le v).length = 4 := fun v => rfl
    have hu16 : ∀ v, (u16le v).length = 2 := fun v => rfl
    simp only [encodeWAV, List.length_append, t1, t2, t3, t4, hu32, hu16,
      wavPayload_length]
  · intro i hi c hc
    obtain ⟨rest, hr⟩ := wavPayload_extract buf i c hi hc
    rw [encodeWAV_drop_44, hr,
      List.take_append_of_le_length (by rw [i16le_length])]
    exact List.take_of_length_le (by rw [i16le_length])

/-- Witness for `wav_byte_layout` at a one-sample mono buffer. -/
theorem wav_byte_layout_witness :
    ((encodeWAV ⟨1, [[1]]⟩).drop
        (44 + 2 * (0 * (⟨1, [[1]]⟩ : PCMBuffer).channelCount + 0))).take 2 =
      i16le (sampleToInt16
        (((⟨1, [[1]]⟩ : PCMBuffer).channels.getD 0 []).getD 0 0)) ∧
    (encodeWAV ⟨1, [[1]]⟩).length = 46 := by
  have h := wav_byte_layout ⟨1, [[1]]⟩
  refine ⟨h.2.2 0 (by simp [PCMBuffer.numFrames]) 0
    (by simp [PCMBuffer.channelCount]), ?_⟩
  have h1 := h.1
  simpa [PCMBuffer.numFrames, PCMBuffer.channelCount] using h1

theorem clamp_of_abs_le (x : ℝ) (h : |x| ≤ 1) : max (-1) (min 1 x) = x := by
  rcases abs_le.mp h with ⟨h1, h2⟩
  rw [min_eq_right h2, max_eq_right h1]

theorem getD_eq_getD_drop (l : List ℕ) (n : ℕ) : l.getD n 0 = (l.drop n).getD 0 0 := by
  rw [List.getD_eq_getElem?_getD, List.getD_eq_getElem?_getD, List.getElem?_drop,
    Nat.add_zero]

theorem encodeWAV_length (buf : PCMBuffer) :
    (encodeWAV buf).length = 44 + buf.numFrames * buf.channelCount * 2 := by
  have t1 : (writeUTFBytes "RIFF").length = 4 := rfl
  have t2 : (writeUTFBytes "WAVE").length = 4 := rfl
  have t3 : (writeUTFBytes "fmt ").length = 4 := rfl
  have t4 : (writeUTFBytes "data").length = 4 := rfl
  have hu32 : ∀ v, (u32le v).length = 4 := fun v => rfl
  have hu16 : ∀ v, (u16le v).length = 2 := fun v => rfl
  simp only [encodeWAV, List.length_append, t1, t2, t3, t4, hu32, hu16,
    wavPayload_length]

/-- Reading back the two stored little-endian bytes of an in-range signed
16-bit value recovers the value. -/
theorem readI16_of_bytes (v : ℤ) (h1 : -32768 ≤ v) (h2 : v ≤ 32767)
    (b : List ℕ) (off : ℕ)
    (hb0 : b.getD off 0 = (v % 65536).toNat % 256)
    (hb1 : b.getD (off + 1) 0 = (v % 65536).toNat / 256 % 256) :
    readI16 b off = v := by
  rw [readI16, readU16, hb0, hb1]
  split <;> omega

/-- Quantization error of encode-then-decode on a single sample in `[-1, 1]`:
at most one truncation step, hence within `1/32767`. -/
theorem decode_sample_error (x : ℝ) (hx : |x| ≤ 1) :
    |(if sampleToInt16 x < 0 then ((sampleToInt16 x : ℤ) : ℝ) / 32768
      else ((sampleToInt16 x : ℤ) : ℝ) / 32767) - x| ≤ 1 / 32767 := by
  have hcl := clamp_of_abs_le x hx
  rw [sampleToInt16_eq, hcl]
  by_cases hneg : x < 0
  · rw [if_pos hneg]
    set v := ⌈x * 32768⌉ with hv
    have p1 : x * 32768 ≤ (v : ℝ) := Int.le_ceil _
    have p2 : (v : ℝ) < x * 32768 + 1 := Int.ceil_lt_add_one _
    by_cases hv0 : v < 0
    · rw [if_pos hv0]
      have hq : ((v : ℝ) / 32768) * 32768 = (v : ℝ) :=
        div_mul_cancel₀ _ (by norm_num)
      rw [abs_le]
      constructor <;> nlinarith [hq, p1, p2]
    · rw [if_neg hv0]
      have hvle : v ≤ 0 := Int.ceil_le.mpr (by push_cast; nlinarith)
      have hveq : v = 0 := le_antisymm hvle (not_lt.mp hv0)
      rw [hveq] at p1 p2 ⊢
      push_cast at p1 p2 ⊢
      rw [abs_le]
      constructor <;> nlinarith
  · rw [if_neg hneg]
    set v := ⌊x * 32767⌋ with hv
    have p1 : (v : ℝ) ≤ x * 32767 := Int.floor_le _
    have p2 : x * 32767 < (v : ℝ) + 1 := Int.lt_floor_add_one _
    have hv0 : ¬ v < 0 := by
      rw [not_lt]
      exact Int.le_floor.mpr (by push_cast; nlinarith [not_lt.mp hneg])
    rw [if_neg hv0]
    have hq : ((v : ℝ) / 32767) * 32767 = (v : ℝ) :=
      div_mul_cancel₀ _ (by norm_num)
    rw [abs_le]
    constructor <;> nlinarith [hq, p1, p2]

theorem i16le_bytes (v : ℤ) :
    i16le v = [(v % 65536).toNat % 256, (v % 65536).toNat / 256 % 256] := rfl

theorem encodeWAV_getD_20 (buf : PCMBuffer) : (encodeWAV buf).getD 20 0 = 1 := rfl

theorem encodeWAV_getD_21 (buf : PCMBuffer) : (encodeWAV buf).getD 21 0 = 0 := rfl

theorem encodeWAV_getD_22 (buf : PCMBuffer) :
    (encodeWAV buf).getD 22 0 = buf.channelCount % 256 := rfl

theorem encodeWAV_getD_23 (buf : PCMBuffer) :
    (encodeWAV buf).getD 23 0 = buf.channelCount / 256 % 256 := rfl

theorem encodeWAV_getD_24 (buf : PCMBuffer) :
    (encodeWAV buf).getD 24 0 = buf.sampleRate % 256 := rfl

theorem encodeWAV_getD_25 (buf : PCMBuffer) :
    (encodeWAV buf).getD 25 0 = buf.sampleRate / 256 % 256 := rfl

theorem encodeWAV_getD_26 (buf : PCMBuffer) :
    (encodeWAV buf).getD 26 0 = buf.sampleRate / 65536 % 256 := rfl

theorem encodeWAV_getD_27 (buf : PCMBuffer) :
    (encodeWAV buf).getD 27 0 = buf.sampleRate / 16777216 % 256 := rfl

theorem encodeWAV_getD_34 (buf : PCMBuffer) : (encodeWAV buf).getD 34 0 = 16 := rfl

theorem encodeWAV_getD_35 (buf : PCMBuffer) : (encodeWAV buf).getD 35 0 = 0 := rfl

theorem readU16_20 (buf : PCMBuffer) : readU16 (encodeWAV buf) 20 = 1 := by
  rw [readU16, encodeWAV_getD_20]
  rw [show (20 : ℕ) + 1 = 21 from rfl, encodeWAV_getD_21]

theorem readU16_22 (buf : PCMBuffer) (hC16 : buf.channelCount < 65536) :
    readU16 (encodeWAV buf) 22 = buf.channelCount := by
  rw [readU16, encodeWAV_getD_22, show (22 : ℕ) + 1 = 23 from rfl,
    encodeWAV_getD_23]
  omega

theorem readU16_34 (buf : PCMBuffer) : readU16 (encodeWAV buf) 34 = 16 := by
  rw [readU16, encodeWAV_getD_34, show (34 : ℕ) + 1 = 35 from rfl,
    encodeWAV_getD_35]

theorem readU32_24 (buf : PCMBuffer) (hr32 : buf.sampleRate < 4294967296) :
    readU32 (encodeWAV buf) 24 = buf.sampleRate := by
  rw [readU32, encodeWAV_getD_24, show (24 : ℕ) + 1 = 25 from rfl,
    show (24 : ℕ) + 2 = 26 from rfl, show (24 : ℕ) + 3 = 27 from rfl,
    encodeWAV_getD_25, encodeWAV_getD_26, encodeWAV_getD_27]
  omega

/-- Reading the interleaved payload back recovers the encoded 16-bit value of
every sample. -/
theorem encodeWAV_readI16 (buf : PCMBuffer) (i c : ℕ)
    (hi : i < buf.numFrames) (hc : c < buf.channelCount) :
    readI16 (encodeWAV buf) (44 + 2 * (i * buf.channelCount + c)) =
      sampleToInt16 ((buf.channels.getD c []).getD i 0) := by
  obtain ⟨rest, hr⟩ := wavPayload_extract buf i c hi hc
  have hb := sampleToInt16_bounds ((buf.channels.getD c []).getD i 0)
  refine readI16_of_bytes _ hb.1 hb.2 _ _ ?_ ?_
  · rw [getD_eq_getD_drop, encodeWAV_drop_44, hr, i16le_bytes]
    rfl
  · rw [show 44 + 2 * (i * buf.channelCount + c) + 1 =
        44 + (2 * (i * buf.channelCount + c) + 1) from by ring,
      getD_eq_getD_drop, encodeWAV_drop_44, ← List.drop_drop, hr, i16le_bytes]
    rfl

/-- C5 amended: decoding the encoder's bytes with the §4.2 reference decoder
recovers audioFormat 1, bitsPerSample 16, and sampleRate and channelCount
exactly — provided they fit their uint32/uint16 header fields — and recovers
every sample within `1/32767` provided every sample lies in `[-1, 1]`
(samples outside `[-1, 1]` are clamped by the encoder and lost). -/
theorem wav_roundtrip_within_tolerance (buf : PCMBuffer)
    (hr : 0 < buf.sampleRate) (hr32 : buf.sampleRate < 4294967296)
    (hC : 0 < buf.channelCount) (hC16 : buf.channelCount < 65536)
    (hs : ∀ ch ∈ buf.channels, ∀ x ∈ ch, |x| ≤ 1) :
    (decodeWAV (encodeWAV buf)).audioFormat = 1 ∧
    (decodeWAV (encodeWAV buf)).numChannels = buf.channelCount ∧
    (decodeWAV (encodeWAV buf)).sampleRate = buf.sampleRate ∧
    (decodeWAV (encodeWAV buf)).bitsPerSample = 16 ∧
    (decodeWAV (encodeWAV buf)).channels.length = buf.channelCount ∧
    ∀ c, c < buf.channelCount →
      ((decodeWAV (encodeWAV buf)).channels.getD c []).length = buf.numFrames ∧
      ∀ i, i < buf.numFrames →
        |((decodeWAV (encodeWAV buf)).channels.getD c []).getD i 0 -
          (buf.channels.getD c []).getD i 0| ≤ 1 / 32767 := by
  have hu22 := readU16_22 buf hC16
  have hu24 := readU32_24 buf hr32
  have hN : ((encodeWAV buf).length - 44) / (2 * buf.channelCount) =
      buf.numFrames := by
    rw [encodeWAV_length]
    have h1 : 44 + buf.numFrames * buf.channelCount * 2 - 44 =
        buf.numFrames * (2 * buf.channelCount) := by
      ring_nf
      omega
    rw [h1, Nat.mul_div_cancel _ (by omega)]
  simp only [decodeWAV, hu22, hu24, readU16_20, readU16_34, hN]
  refine ⟨trivial, trivial, trivial, trivial, by simp, ?_⟩
  intro c hc
  have hcl : c < ((List.range buf.channelCount).map fun c =>
      (List.range buf.numFrames).map fun i =>
        (fun v : ℤ => if v < 0 then ((v : ℤ) : ℝ) / 32768
          else ((v : ℤ) : ℝ) / 32767)
          (readI16 (encodeWAV buf)
            (44 + 2 * (i * buf.channelCount + c)))).length := by
    simpa using hc
  constructor
  · rw [List.getD_eq_getElem _ _ hcl, List.getElem_map, List.getElem_range]
    simp
  · intro i hi
    rw [List.getD_eq_getElem _ _ hcl, List.getElem_map, List.getElem_range]
    have hil : i < ((List.range buf.numFrames).map fun i =>
        (fun v : ℤ => if v < 0 then ((v : ℤ) : ℝ) / 32768
          else ((v : ℤ) : ℝ) / 32767)
          (readI16 (encodeWAV buf)
            (44 + 2 * (i * buf.channelCount + c)))).length := by
      simpa using hi
    rw [List.getD_eq_getElem _ _ hil, List.getElem_map, List.getElem_range]
    rw [encodeWAV_readI16 buf i c hi hc]
    have hin : ∀ x ∈ buf.channels.getD c [], |x| ≤ 1 := by
      by_cases hlt : c < buf.channels.length
      · rw [List.getD_eq_getElem _ _ hlt]
        exact hs _ (List.getElem_mem hlt)
      · rw [List.getD_eq_default _ _ (le_of_not_lt hlt)]
        intro x hx
        simp at hx
    exact decode_sample_error _ (abs_getD_le_one _ hin i)

/-- C5 counterexample: the round-trip guarantee fails for general PCMBuffers
with positive sampleRate and channelCount.  A sample of `1.3` (as produced by
the unclamped angry/energetic branches) is clamped by the encoder and comes
back as `1`, an error of `0.3`; a sampleRate of `2^32` wraps to `0` in the
uint32 header field; a channelCount of `2^16` wraps to `0` in the uint16
header field. -/
theorem wav_roundtrip_fails_as_stated :
    (0 < (⟨8, [[13 / 10]]⟩ : PCMBuffer).sampleRate ∧
     0 < (⟨8, [[13 / 10]]⟩ : PCMBuffer).channelCount ∧
     ¬ |((decodeWAV (encodeWAV ⟨8, [[13 / 10]]⟩)).channels.getD 0 []).getD 0 0 -
         ((⟨8, [[13 / 10]]⟩ : PCMBuffer).channels.getD 0 []).getD 0 0| ≤ 1 / 32767) ∧
    (0 < (⟨4294967296, [[0]]⟩ : PCMBuffer).sampleRate ∧
     0 < (⟨4294967296, [[0]]⟩ : PCMBuffer).channelCount ∧
     (decodeWAV (encodeWAV ⟨4294967296, [[0]]⟩)).sampleRate ≠
       (⟨4294967296, [[0]]⟩ : PCMBuffer).sampleRate) ∧
    (0 < (⟨8, List.replicate 65536 ([] : List ℝ)⟩ : PCMBuffer).sampleRate ∧
     0 < (⟨8, List.replicate 65536 ([] : List ℝ)⟩ : PCMBuffer).channelCount ∧
     (decodeWAV (encodeWAV ⟨8, List.replicate 65536 ([] : List ℝ)⟩)).numChannels ≠
       (⟨8, List.replicate 65536 ([] : List ℝ)⟩ : PCMBuffer).channelCount) := by
  refine ⟨⟨by norm_num, by norm_num [PCMBuffer.channelCount], ?_⟩,
    ⟨by norm_num, by norm_num [PCMBuffer.channelCount], ?_⟩,
    ⟨by norm_num, ?_, ?_⟩⟩
  · have hC16 : (⟨8, [[13 / 10]]⟩ : PCMBuffer).channelCount < 65536 := by
      norm_num [PCMBuffer.channelCount]
    have hu22 : readU16 (encodeWAV ⟨8, [[13 / 10]]⟩) 22 = 1 := by
      rw [readU16_22 _ hC16]
      rfl
    have hN1 : ((encodeWAV ⟨8, [[13 / 10]]⟩).length - 44) / (2 * 1) = 1 := by
      rw [encodeWAV_length]
      rfl
    have hkey : ((decodeWAV (encodeWAV ⟨8, [[13 / 10]]⟩)).channels.getD 0 []).getD 0 0 =
        if readI16 (encodeWAV ⟨8, [[13 / 10]]⟩) 44 < 0
        then ((readI16 (encodeWAV ⟨8, [[13 / 10]]⟩) 44 : ℤ) : ℝ) / 32768
        else ((readI16 (encodeWAV ⟨8, [[13 / 10]]⟩) 44 : ℤ) : ℝ) / 32767 := by
      simp only [decodeWAV, hu22, hN1]
      rfl
    have hread : readI16 (encodeWAV ⟨8, [[13 / 10]]⟩) 44 =
        sampleToInt16 (13 / 10) := by
      have h := encodeWAV_readI16 ⟨8, [[13 / 10]]⟩ 0 0
        (by norm_num [PCMBuffer.numFrames]) (by norm_num [PCMBuffer.channelCount])
      simpa using h
    have hs32 : sampleToInt16 ((13 : ℝ) / 10) = 32767 := by
      rw [sampleToInt16_eq, min_eq_left (by norm_num), max_eq_right (by norm_num),
        if_neg (by norm_num), one_mul,
        show ((32767 : ℝ)) = ((32767 : ℤ) : ℝ) by norm_num, Int.floor_intCast]
    have horig : ((⟨8, [[13 / 10]]⟩ : PCMBuffer).channels.getD 0 []).getD 0 0 =
        (13 : ℝ) / 10 := rfl
    rw [hkey, hread, hs32, if_neg (by norm_num : ¬ (32767 : ℤ) < 0), horig]
    rw [show ((32767 : ℤ) : ℝ) / 32767 - 13 / 10 = -(3 / 10) by push_cast; norm_num,
      abs_neg, abs_of_nonneg (by norm_num : (0 : ℝ) ≤ 3 / 10)]
    norm_num
  · have hsr : (decodeWAV (encodeWAV ⟨4294967296, [[0]]⟩)).sampleRate =
        readU32 (encodeWAV ⟨4294967296, [[0]]⟩) 24 := rfl
    rw [hsr, readU32, encodeWAV_getD_24, show (24 : ℕ) + 1 = 25 from rfl,
      show (24 : ℕ) + 2 = 26 from rfl, show (24 : ℕ) + 3 = 27 from rfl,
      encodeWAV_getD_25, encodeWAV_getD_26, encodeWAV_getD_27]
    norm_num
  · have hcc : (⟨8, List.replicate 65536 ([] : List ℝ)⟩ : PCMBuffer).channelCount =
        65536 := by
      show (List.replicate 65536 ([] : List ℝ)).length = 65536
      exact List.length_replicate ..
    omega
  · have hnc : (decodeWAV (encodeWAV ⟨8, List.replicate 65536 ([] : List ℝ)⟩)).numChannels =
        readU16 (encodeWAV ⟨8, List.replicate 65536 ([] : List ℝ)⟩) 22 := rfl
    have hcc : (⟨8, List.replicate 65536 ([] : List ℝ)⟩ : PCMBuffer).channelCount =
        65536 := by
      show (List.replicate 65536 ([] : List ℝ)).length = 65536
      exact List.length_replicate ..
    rw [hnc, readU16, encodeWAV_getD_22, show (22 : ℕ) + 1 = 23 from rfl,
      encodeWAV_getD_23, hcc]
    norm_num

/-- Witness for `wav_roundtrip_within_tolerance` at a one-sample mono buffer. -/
theorem wav_roundtrip_within_tolerance_witness :
    (decodeWAV (encodeWAV ⟨1, [[1]]⟩)).audioFormat = 1 ∧
    (decodeWAV (encodeWAV ⟨1, [[1]]⟩)).sampleRate =
      (⟨1, [[1]]⟩ : PCMBuffer).sampleRate ∧
    ((decodeWAV (encodeWAV ⟨1, [[1]]⟩)).channels.getD 0 []).length =
      (⟨1, [[1]]⟩ : PCMBuffer).numFrames ∧
    |((decodeWAV (encodeWAV ⟨1, [[1]]⟩)).channels.getD 0 []).getD 0 0 -
      ((⟨1, [[1]]⟩ : PCMBuffer).channels.getD 0 []).getD 0 0| ≤ 1 / 32767 := by
  have h := wav_roundtrip_within_tolerance ⟨1, [[1]]⟩ (by norm_num)
    (by norm_num) (by norm_num [PCMBuffer.channelCount])
    (by norm_num [PCMBuffer.channelCount])
    (by intro ch hch x hx
        simp only [List.mem_singleton] at hch
        subst hch
        simp only [List.mem_singleton] at hx
        subst hx
        norm_num)
  have hc0 : (0 : ℕ) < (⟨1, [[1]]⟩ : PCMBuffer).channelCount := by
    norm_num [PCMBuffer.channelCount]
  have hi0 : (0 : ℕ) < (⟨1, [[1]]⟩ : PCMBuffer).numFrames := by
    simp [PCMBuffer.numFrames]
  exact ⟨h.1, h.2.2.1, (h.2.2.2.2.2 0 hc0).1, (h.2.2.2.2.2 0 hc0).2 0 hi0⟩
